import Mathlib

/-!
# Verification of the survey-pipeline publishing/rollback subsystem

Shallow embedding of `survey_pipeline/utils.py` (`backup_directory`,
`atomic_directory_swap`) and `survey_pipeline/publishing.py`
(`PublishingEngine`: `validate_staging_data`, `create_backup`,
`publish_data`, `rollback_publication`) over an explicit filesystem state.

Modelling conventions:
* A filesystem path is a list of name segments relative to the project
  root (e.g. `["staging", "cleaned"]`).
* The filesystem is an association list from directory paths to flat
  directories (lists of name/content pairs); the directories this
  subsystem swaps, backs up and archives are flat in practice (CSV files
  plus publication-metadata JSON files).
* Wall-clock timestamps (`create_run_timestamp()`, `datetime.now()`) are
  passed in as explicit string parameters.
* File modification times are not modelled; the claims under study do not
  depend on them.
* Python exceptions become an `Except`-shaped result paired with the
  filesystem state at the moment the exception escapes; filesystem
  failures inside `atomic_directory_swap` are modelled by a failure
  injection parameter saying which step (if any) raises.
-/

namespace SurveyPipeline

/-! ## Embedded data model and operations -/

/-- A path, as the list of its name segments below the project root. -/
abbrev Path := List String

/-- The final name segment of a path (`Path.name` in Python). -/
def Path.nameOf (p : Path) : String := (p.getLast?).getD ""

/-- A sibling of `p` named `s` (`p.parent / s` in Python). -/
def Path.siblingOf (p : Path) (s : String) : Path := p.dropLast ++ [s]

/-- Publication-record metadata, as built by
`PublishingEngine.create_publication_metadata`.  Dataset descriptors are
inlined as name/record-count/column-count triples. -/
structure DatasetInfo where
  file : String
  dir : List String
  records : Nat
  columns : Nat
deriving DecidableEq, Repr

structure PubMetadata where
  publicationTimestamp : String
  publicationDate : String
  datasetsPublished : List DatasetInfo
  totalRecordsPublished : Nat
  sourceDirectory : List String
  targetDirectory : List String
  backupCreated : Bool
  publisher : String
  configVersion : String
deriving DecidableEq, Repr

/-- Content of a single file.  A `csv` is a tabular file pandas can parse
(`rows` data rows, `columns` columns, `body` distinguishes generations of
content); a `badCsv` makes `pandas.read_csv` raise; `metaJson` is a
publication-record JSON file. -/
inductive Content where
  | csv (rows columns : Nat) (body : String)
  | badCsv (body : String)
  | metaJson (m : PubMetadata)
  | other (body : String)
deriving DecidableEq, Repr

/-- A flat directory: the files it holds, in listing order. -/
abbrev Dir := List (String × Content)

/-- Replace file `n` in a directory with content `c`, appending when absent
(the effect of opening `dir / n` for writing). -/
def Dir.setFile (d : Dir) (n : String) (c : Content) : Dir :=
  if d.any (fun e => e.1 = n) then
    d.map (fun e => if e.1 = n then (n, c) else e)
  else d ++ [(n, c)]

/-- The filesystem: an association list from directory paths to flat
directories.  Earlier entries shadow later ones. -/
abbrev Fs := List (Path × Dir)

def Fs.find : Fs → Path → Option Dir
  | [], _ => none
  | e :: t, p => if e.1 = p then some e.2 else Fs.find t p

def Fs.erase : Fs → Path → Fs
  | [], _ => []
  | e :: t, p => if e.1 = p then Fs.erase t p else e :: Fs.erase t p

/-- Create or replace the directory at `p`. -/
def Fs.set (fs : Fs) (p : Path) (d : Dir) : Fs :=
  (p, d) :: fs.erase p

/-- Embedding of `backup_directory(source, backup_name)`: if `source` does not exist
return `None`; otherwise recursively copy it to the sibling directory
`backup_name`, replacing any previous directory of that name, and return
the backup path. -/
def backup_directory (fs : Fs) (source : Path) (backupName : String) :
    Option Path × Fs :=
  match fs.find source with
  | Option.none => (Option.none, fs)
  | some d =>
      let backupPath := source.siblingOf backupName
      (some backupPath, fs.set backupPath d)

/-- Failure injection for `atomic_directory_swap`: which of its fallible
steps (if any) raises.  Step numbering follows the source comments:
step 4 removes the existing target, step 5 renames temp to target. -/
inductive SwapFail where
  | noFail
  | atRmtree
  | atRename
deriving DecidableEq, Repr

/-- Step 2 of `atomic_directory_swap`: if `backup` is requested and the
target exists, back it up to the sibling `<target.name>_backup_<ts>`. -/
def swapBackupStep (fs : Fs) (target : Path) (backup : Bool) (backupTs : String) : Fs :=
  if backup ∧ (fs.find target).isSome then
    (backup_directory fs target (Path.nameOf target ++ "_backup_" ++ backupTs)).2
  else fs

/-- Embedding of `atomic_directory_swap(source, target, backup)`:
1. raise `FileNotFoundError` if `source` does not exist;
2. if `backup` and `target` exists, back `target` up to
   `<target.name>_backup_<ts>`;
3. copy `source` to the temporary sibling `<target.name>_temp_<ts>`;
4. remove `target` if it exists;
5. rename the temporary directory to `target`; return `True`.
On an exception in step 4 or 5 the temporary directory is removed and the
exception is re-raised.  The two `create_run_timestamp()` calls are the
parameters `backupTs` and `tempTs`; the result pairs the normal return
value (or the escaped exception) with the filesystem afterwards. -/
def atomic_directory_swap (fs : Fs) (source target : Path) (backup : Bool)
    (backupTs tempTs : String) (fail : SwapFail) : Except String Bool × Fs :=
  match fs.find source with
  | Option.none =>
      (Except.error ("Source directory does not exist: " ++ Path.nameOf source), fs)
  | some _ =>
      let fs1 := swapBackupStep fs target backup backupTs
      let temp := Path.siblingOf target (Path.nameOf target ++ "_temp_" ++ tempTs)
      let srcNow := (fs1.find source).getD []
      let fs2 := fs1.set temp srcNow
      if fail = SwapFail.atRmtree ∧ (fs2.find target).isSome then
        (Except.error "rmtree(target) failed", fs2.erase temp)
      else
        let fs3 := if (fs2.find target).isSome then fs2.erase target else fs2
        if fail = SwapFail.atRename then
          (Except.error "temp.rename(target) failed", fs3.erase temp)
        else
          (Except.ok true, (fs3.erase temp).set target srcNow)

inductive FsOp where
  | mkdir (p : Path)
  | writeFile (p : Path) (n : String) (c : Content)
  | deleteFile (p : Path) (n : String)
  | rmdir (p : Path)
  | renameDir (src dst : Path)
deriving DecidableEq, Repr

def applyOp (fs : Fs) : FsOp → Fs
  | FsOp.mkdir p => fs.set p []
  | FsOp.writeFile p n c =>
      match fs.find p with
      | some d => fs.set p (d ++ [(n, c)])
      | Option.none => fs
  | FsOp.deleteFile p n =>
      match fs.find p with
      | some d => fs.set p (d.filter (fun e => ¬ (e.1 = n)))
      | Option.none => fs
  | FsOp.rmdir p => fs.erase p
  | FsOp.renameDir src dst =>
      match fs.find src with
      | some d => (fs.erase src).set dst d
      | Option.none => fs

def applyOps (fs : Fs) : List FsOp → Fs
  | [] => fs
  | op :: t => applyOps (applyOp fs op) t

/-- The operations of `shutil.copytree(·, dst)` writing `files`. -/
def copyTreeOps (files : Dir) (dst : Path) : List FsOp :=
  FsOp.mkdir dst :: files.map (fun e => FsOp.writeFile dst e.1 e.2)

/-- The operations of `shutil.rmtree(p)` on a directory holding `files`. -/
def rmTreeOps (files : Dir) (p : Path) : List FsOp :=
  files.map (fun e => FsOp.deleteFile p e.1) ++ [FsOp.rmdir p]

/-- Step 2 of the swap (`backup_directory` on an existing target):
`shutil.rmtree` of any previous backup of the same name followed by a
recursive copy of the target. -/
def swapBackupOps (fs : Fs) (target : Path) (backup : Bool)
    (backupTs : String) : List FsOp :=
  let backupPath := Path.siblingOf target (Path.nameOf target ++ "_backup_" ++ backupTs)
  if backup ∧ (fs.find target).isSome then
    (match fs.find backupPath with
     | some oldBackup => rmTreeOps oldBackup backupPath
     | Option.none => [])
    ++ copyTreeOps ((fs.find target).getD []) backupPath
  else []

/-- Step 4 of the swap: `shutil.rmtree(target)` when the target exists. -/
def swapRemoveOps (fs : Fs) (target : Path) : List FsOp :=
  match fs.find target with
  | some tfiles => rmTreeOps tfiles target
  | Option.none => []

/-- The primitive-operation sequence of a crash-free
`atomic_directory_swap(source, target, backup)` run.  Each phase's
operations are computed from the initial state; under the
path-distinctness side conditions of the theorems below this coincides
with sequential execution. -/
def swapTrace (fs : Fs) (source target : Path) (backup : Bool)
    (backupTs tempTs : String) : List FsOp :=
  let temp := Path.siblingOf target (Path.nameOf target ++ "_temp_" ++ tempTs)
  swapBackupOps fs target backup backupTs
  ++ (copyTreeOps ((fs.find source).getD []) temp
  ++ (swapRemoveOps fs target
  ++ [FsOp.renameDir temp target]))

/-- The paths an operation can modify. -/
def FsOp.touched : FsOp → List Path
  | FsOp.mkdir p => [p]
  | FsOp.writeFile p _ _ => [p]
  | FsOp.deleteFile p _ => [p]
  | FsOp.rmdir p => [p]
  | FsOp.renameDir src dst => [src, dst]

/-- The configuration surface the engine reads (`publish.stable_directory`,
`publish.backup_previous`, `version`), with the source's defaults. -/
structure Engine where
  stableDirectory : String := "cleaned_stable"
  backupPrevious : Bool := true
  version : String := "1.0.0"
deriving DecidableEq, Repr

def Engine.stablePath (eng : Engine) : Path := [eng.stableDirectory]

def stagingCleaned : Path := ["staging", "cleaned"]

def consolidatedDir : Path := ["staging", "cleaned_consolidated"]

/-- Suffix test on strings by character list (the effect of Python's
`str.endswith`, used by the `*.csv` glob). -/
def strEndsWith (s suf : String) : Bool :=
  decide (s.data.reverse.take suf.data.length = suf.data.reverse)

/-- Prefix test on strings by character list (the effect of Python's
glob prefix matching). -/
def strStartsWith (s pre : String) : Bool :=
  decide (s.data.take pre.data.length = pre.data)

instance : Inhabited Content := ⟨Content.other ""⟩

/-- Effect of `pandas.read_csv` on a file's content: row and column count of a
parseable tabular file, failure otherwise. -/
def readCsv : Content → Option (Nat × Nat)
  | Content.csv r c _ => some (r, c)
  | _ => Option.none

/-- Effect of `glob("*.csv")` on a flat directory. -/
def csvFilesOf (d : Dir) : List (String × Content) :=
  d.filter (fun e => strEndsWith e.1 ".csv")

def Dir.getFile : Dir → String → Option Content
  | [], _ => Option.none
  | e :: t, n => if e.1 = n then some e.2 else Dir.getFile t n

/-- The timestamped subdirectories of `staging/cleaned`
(`iterdir()` filtered by `is_dir()`). -/
def stagingSubdirNames (fs : Fs) : List String :=
  ((fs.map (·.1)).filterMap (fun p =>
    match p with
    | ["staging", "cleaned", t] => some t
    | _ => Option.none)).dedup

structure ValidationResult where
  valid : Bool
  issues : List String
  datasetsFound : List DatasetInfo
  totalRecords : Nat
deriving DecidableEq, Repr

/-- One iteration of the dataset loop of `validate_staging_data`. -/
def validateFile (acc : ValidationResult) (dir : Path) (f : String × Content) :
    ValidationResult :=
  match readCsv f.2 with
  | some (r, c) =>
      { acc with
        datasetsFound := acc.datasetsFound ++ [⟨f.1, dir, r, c⟩]
        totalRecords := acc.totalRecords + r
        issues := if r = 0 then acc.issues ++ ["Dataset " ++ f.1 ++ " is empty"]
                  else acc.issues }
  | Option.none =>
      { acc with
        valid := false
        issues := acc.issues ++ ["Error reading " ++ f.1 ++ ": parse error"] }

/-- The CSV files `validate_staging_data` scans: the ones directly under
`staging/cleaned`, or, when there are none, the ones in its immediate
subdirectories. -/
def stagingCsvFiles (fs : Fs) : List (Path × (String × Content)) :=
  match fs.find stagingCleaned with
  | Option.none => []
  | some d =>
      let direct := csvFilesOf d
      if direct ≠ [] then direct.map (fun f => (stagingCleaned, f))
      else (stagingSubdirNames fs).foldr (fun t acc =>
        (match fs.find ["staging", "cleaned", t] with
         | some sd => (csvFilesOf sd).map (fun f => ((["staging", "cleaned", t] : Path), f))
         | Option.none => []) ++ acc) []

/-- Embedding of `PublishingEngine.validate_staging_data`. -/
def validate_staging_data (fs : Fs) : ValidationResult :=
  match fs.find stagingCleaned with
  | Option.none =>
      { valid := false, issues := ["No staging/cleaned directory found"],
        datasetsFound := [], totalRecords := 0 }
  | some _ =>
      let files := stagingCsvFiles fs
      if files = [] then
        { valid := false,
          issues := ["No CSV files found in staging/cleaned or its subdirectories"],
          datasetsFound := [], totalRecords := 0 }
      else
        let r := files.foldl (fun acc pf => validateFile acc pf.1 pf.2)
          { valid := true, issues := [], datasetsFound := [], totalRecords := 0 }
        if r.totalRecords = 0 then
          { r with valid := false,
                   issues := r.issues ++ ["No data records found across all datasets"] }
        else r

/-- Embedding of `PublishingEngine.create_publication_metadata`. -/
def create_publication_metadata (eng : Engine) (runTs nowIso : String)
    (vr : ValidationResult) : PubMetadata :=
  { publicationTimestamp := runTs
    publicationDate := nowIso
    datasetsPublished := vr.datasetsFound
    totalRecordsPublished := vr.totalRecords
    sourceDirectory := stagingCleaned
    targetDirectory := eng.stablePath
    backupCreated := eng.backupPrevious
    publisher := "survey-pipeline-automation"
    configVersion := eng.version }

/-- Embedding of `PublishingEngine.create_backup`: back up the stable directory to
`stable_backup_<run_timestamp>` unless backups are disabled or there is
nothing (no directory, or an empty one) to back up. -/
def create_backup (eng : Engine) (fs : Fs) (runTs : String) : Option Path × Fs :=
  if ¬ eng.backupPrevious then (Option.none, fs)
  else match fs.find eng.stablePath with
    | Option.none => (Option.none, fs)
    | some d =>
        if d = [] then (Option.none, fs)
        else backup_directory fs eng.stablePath ("stable_backup_" ++ runTs)

/-- Embedding of `PublishingEngine._prepare_staging_for_publication`: when all
discovered datasets live directly in `staging/cleaned`, publish from
there; otherwise consolidate them into `staging/cleaned_consolidated`. -/
def prepare_staging_for_publication (fs : Fs) (vr : ValidationResult) : Path × Fs :=
  if vr.datasetsFound.all (fun ds => ds.dir = stagingCleaned) then (stagingCleaned, fs)
  else
    let fs1 := fs.set consolidatedDir []
    let fs2 := vr.datasetsFound.foldl (fun acc ds =>
      match (acc.find ds.dir).bind (fun d => Dir.getFile d ds.file) with
      | some c => acc.set consolidatedDir
          (Dir.setFile ((acc.find consolidatedDir).getD []) ds.file c)
      | Option.none => acc) fs1
    (consolidatedDir, fs2)

/-- Embedding of `PublishingEngine._cleanup_staging`: archive the consumed staging
content under `staging/published_archive/<run_timestamp>`. -/
def cleanup_staging (fs : Fs) (runTs : String) (sourceDir : Path) : Fs :=
  match fs.find sourceDir with
  | Option.none => fs
  | some d =>
      if Path.nameOf sourceDir = "cleaned_consolidated" then
        let fs1 := (stagingSubdirNames fs).foldl (fun acc t =>
          match acc.find ["staging", "cleaned", t] with
          | some sd => (acc.erase ["staging", "cleaned", t]).set
              ["staging", "published_archive", runTs, t] sd
          | Option.none => acc) fs
        fs1.erase consolidatedDir
      else
        (fs.erase sourceDir).set ["staging", "published_archive", runTs] d

/-- The structured result dictionary of `publish_data`; `Option` marks
keys that only some branches include. -/
structure PublishResult where
  success : Bool
  error : Option String := Option.none
  issues : Option (List String) := Option.none
  metadata : Option PubMetadata := Option.none
  backupPath : Option (Option Path) := Option.none
  datasetsPublished : Option Nat := Option.none
  totalRecords : Option Nat := Option.none
  runTimestamp : Option String := Option.none
deriving DecidableEq, Repr

/-- Embedding of `PublishingEngine.publish_data(run_timestamp, force)`:
validate (unless forced), back up, build metadata, prepare the source,
swap atomically, write the publication record into the stable directory,
archive staging.  `nowIso` is `datetime.now().isoformat()`;
`swapBackupTs`/`swapTempTs` are the swap's internal
`create_run_timestamp()` calls; `fail` injects a swap-step failure. -/
def publish_data (eng : Engine) (fs : Fs) (runTs nowIso swapBackupTs swapTempTs : String)
    (force : Bool) (fail : SwapFail) : PublishResult × Fs :=
  let vr := if force then
      { valid := true, issues := [], datasetsFound := [], totalRecords := 0 }
    else validate_staging_data fs
  if ¬ force ∧ vr.valid = false then
    ({ success := false, error := some "Staging data validation failed",
       issues := some vr.issues, runTimestamp := some runTs }, fs)
  else
    let bk := create_backup eng fs runTs
    let metadata := create_publication_metadata eng runTs nowIso vr
    let prep := prepare_staging_for_publication bk.2 vr
    match atomic_directory_swap prep.2 prep.1 eng.stablePath eng.backupPrevious
        swapBackupTs swapTempTs fail with
    | (Except.ok true, fs3) =>
        let fs4 := fs3.set eng.stablePath
          (Dir.setFile ((fs3.find eng.stablePath).getD [])
            ("_publication_metadata_" ++ runTs ++ ".json") (Content.metaJson metadata))
        let fs5 := cleanup_staging fs4 runTs prep.1
        ({ success := true, metadata := some metadata,
           backupPath := some bk.1,
           datasetsPublished := some vr.datasetsFound.length,
           totalRecords := some vr.totalRecords,
           runTimestamp := some runTs }, fs5)
    | (Except.ok false, fs3) =>
        ({ success := false, error := some "Atomic directory swap failed",
           runTimestamp := some runTs }, fs3)
    | (Except.error e, fs3) =>
        ({ success := false, error := some e, runTimestamp := some runTs }, fs3)

/-- The structured result dictionary of `rollback_publication`. -/
structure RollbackResult where
  success : Bool
  error : Option String := Option.none
  restoredFrom : Option Path := Option.none
  currentBackup : Option (Option Path) := Option.none
  rollbackTimestamp : Option String := Option.none
deriving DecidableEq, Repr

/-- Embedding of `PublishingEngine.rollback_publication(backup_timestamp)`: locate a
`stable_backup_<backup_timestamp>` directory anywhere under the project
tree, snapshot the current stable state via
`create_backup("pre_rollback_" + now)`, and swap the found backup in as
the stable directory.  `nowTs` is the `create_run_timestamp()` call. -/
def rollback_publication (eng : Engine) (fs : Fs)
    (backupTimestamp nowTs swapBackupTs swapTempTs : String) (fail : SwapFail) :
    RollbackResult × Fs :=
  let pat := "stable_backup_" ++ backupTimestamp
  match (fs.map (·.1)).filter (fun p => Path.nameOf p = pat) with
  | [] => ({ success := false,
             error := some ("No backup found for timestamp: " ++ backupTimestamp) }, fs)
  | backupPath :: _ =>
      let bk := create_backup eng fs ("pre_rollback_" ++ nowTs)
      match atomic_directory_swap bk.2 backupPath eng.stablePath true
          swapBackupTs swapTempTs fail with
      | (Except.ok true, fs2) =>
          ({ success := true, restoredFrom := some backupPath,
             currentBackup := some bk.1,
             rollbackTimestamp := some nowTs }, fs2)
      | (Except.ok false, fs2) =>
          ({ success := false, error := some "Atomic rollback operation failed" }, fs2)
      | (Except.error e, fs2) =>
          ({ success := false, error := some e }, fs2)

/-- The glob `_publication_metadata_*.json` used for Publication Record
files (`list_publications`). -/
def isPubRecordName (n : String) : Bool :=
  strStartsWith n "_publication_metadata_" && strEndsWith n ".json"

/-- Whether a file's content is a Publication Record referencing the
given run timestamp. -/
def recordReferences (c : Content) (ts : String) : Bool :=
  match c with
  | Content.metaJson m => m.publicationTimestamp = ts
  | _ => false

/-! ## Theorems -/

theorem Fs.find_erase_ne (fs : Fs) (p q : Path) (h : q ≠ p) :
    (fs.erase p).find q = fs.find q := by
  induction fs with
  | nil => rfl
  | cons e t ih =>
    by_cases he : e.1 = p
    · have hne : e.1 ≠ q := fun hc => h (hc ▸ he ▸ rfl)
      simp only [Fs.erase, if_pos he, Fs.find, if_neg hne, ih]
    · by_cases heq : e.1 = q
      · simp only [Fs.erase, if_neg he, Fs.find, if_pos heq]
      · simp only [Fs.erase, if_neg he, Fs.find, if_neg heq, ih]

theorem Fs.find_erase (fs : Fs) (p : Path) : (fs.erase p).find p = none := by
  induction fs with
  | nil => rfl
  | cons e t ih =>
    by_cases he : e.1 = p
    · simp only [Fs.erase, if_pos he, ih]
    · simp only [Fs.erase, if_neg he, Fs.find, if_neg he, ih]

theorem Fs.find_set (fs : Fs) (p : Path) (d : Dir) :
    (fs.set p d).find p = some d := by
  simp [Fs.set, Fs.find]

theorem Fs.find_set_ne (fs : Fs) (p q : Path) (d : Dir) (h : q ≠ p) :
    (fs.set p d).find q = fs.find q := by
  have hpq : p ≠ q := fun hc => h hc.symm
  simp [Fs.set, Fs.find, hpq, Fs.find_erase_ne fs p q h]

theorem swapBackupStep_find (fs : Fs) (target : Path) (backup : Bool)
    (backupTs : String) (q : Path)
    (hq : q ≠ Path.siblingOf target (Path.nameOf target ++ "_backup_" ++ backupTs)) :
    (swapBackupStep fs target backup backupTs).find q = fs.find q := by
  rw [swapBackupStep]
  by_cases hc : backup ∧ (fs.find target).isSome
  · rw [if_pos hc]
    cases hft : fs.find target with
    | none => rw [hft] at hc; simp at hc
    | some d =>
        simp only [backup_directory, hft]
        exact Fs.find_set_ne _ _ _ _ hq
  · rw [if_neg hc]

theorem applyOp_find_untouched (fs : Fs) (op : FsOp) (p : Path)
    (h : p ∉ op.touched) : (applyOp fs op).find p = fs.find p := by
  cases op with
  | mkdir q =>
      simp only [FsOp.touched, List.mem_singleton] at h
      simp [applyOp, Fs.find_set_ne _ _ _ _ h]
  | writeFile q n c =>
      simp only [FsOp.touched, List.mem_singleton] at h
      cases hq : fs.find q with
      | none => simp [applyOp, hq]
      | some d => simp [applyOp, hq, Fs.find_set_ne _ _ _ _ h]
  | deleteFile q n =>
      simp only [FsOp.touched, List.mem_singleton] at h
      cases hq : fs.find q with
      | none => simp [applyOp, hq]
      | some d => simp [applyOp, hq, Fs.find_set_ne _ _ _ _ h]
  | rmdir q =>
      simp only [FsOp.touched, List.mem_singleton] at h
      simp [applyOp, Fs.find_erase_ne _ _ _ h]
  | renameDir src dst =>
      simp only [FsOp.touched, List.mem_cons, List.mem_singleton] at h
      push_neg at h
      cases hq : fs.find src with
      | none => simp [applyOp, hq]
      | some d =>
          simp [applyOp, hq, Fs.find_set_ne _ _ _ _ h.2.1,
            Fs.find_erase_ne _ _ _ h.1]

theorem applyOps_find_untouched (l : List FsOp) (fs : Fs) (p : Path)
    (h : ∀ op ∈ l, p ∉ op.touched) :
    (applyOps fs l).find p = fs.find p := by
  induction l generalizing fs with
  | nil => rfl
  | cons op t ih =>
      have h1 : p ∉ op.touched := h op (List.mem_cons_self op t)
      have h2 : ∀ o ∈ t, p ∉ o.touched := fun o ho => h o (List.mem_cons_of_mem op ho)
      simp only [applyOps]
      rw [ih _ h2, applyOp_find_untouched _ _ _ h1]

theorem applyOps_append (fs : Fs) (l₁ l₂ : List FsOp) :
    applyOps fs (l₁ ++ l₂) = applyOps (applyOps fs l₁) l₂ := by
  induction l₁ generalizing fs with
  | nil => rfl
  | cons op t ih =>
      show applyOps (applyOp fs op) (t ++ l₂) = _
      rw [ih]
      rfl

theorem applyOps_writes (files : Dir) (acc : Dir) (p : Path) (fs : Fs)
    (h : fs.find p = some acc) :
    (applyOps fs (files.map (fun e => FsOp.writeFile p e.1 e.2))).find p
      = some (acc ++ files) := by
  induction files generalizing fs acc with
  | nil => simpa [applyOps] using h
  | cons f t ih =>
      simp only [List.map_cons, applyOps, applyOp, h]
      rw [ih (acc ++ [(f.1, f.2)]) _ (Fs.find_set _ _ _)]
      simp

theorem applyOps_copyTree (files : Dir) (dst : Path) (fs : Fs) :
    (applyOps fs (copyTreeOps files dst)).find dst = some files := by
  simp only [copyTreeOps, applyOps, applyOp]
  rw [applyOps_writes files [] dst _ (Fs.find_set _ _ _)]
  simp

theorem applyOps_deletes_subset (ns : List String) (p : Path) (fs : Fs)
    (d0 : Dir) (h : fs.find p = some d0) :
    ∃ d, (applyOps fs (ns.map (fun n => FsOp.deleteFile p n))).find p = some d
      ∧ d ⊆ d0 := by
  induction ns generalizing fs d0 with
  | nil => exact ⟨d0, h, fun a ha => ha⟩
  | cons n t ih =>
      simp only [List.map_cons, applyOps, applyOp, h]
      obtain ⟨d, hd, hsub⟩ :=
        ih ((fun fs' => fs') (fs.set p (d0.filter (fun e => ¬ (e.1 = n)))))
          (d0.filter (fun e => ¬ (e.1 = n))) (Fs.find_set _ _ _)
      exact ⟨d, hd, fun a ha => List.filter_subset' d0 (hsub ha)⟩

/-- Crash anywhere inside `shutil.rmtree(p)`: the directory holds a subset
of its previous files, or is gone. -/
theorem rmTree_take (files : Dir) (p : Path) (fs : Fs) (d0 : Dir)
    (h : fs.find p = some d0) (k : Nat) :
    ((applyOps fs ((rmTreeOps files p).take k)).find p = Option.none) ∨
    (∃ d, (applyOps fs ((rmTreeOps files p).take k)).find p = some d ∧ d ⊆ d0) := by
  rw [rmTreeOps, List.take_append_eq_append_take]
  by_cases hk : k ≤ (files.map (fun e => FsOp.deleteFile p e.1)).length
  · have h0 : k - (files.map (fun e => FsOp.deleteFile p e.1)).length = 0 :=
      Nat.sub_eq_zero_of_le hk
    rw [h0]
    simp only [List.take_zero, List.append_nil]
    rw [← List.map_take]
    obtain ⟨d, hd, hsub⟩ :=
      applyOps_deletes_subset ((files.take k).map (·.1)) p fs d0 (by simpa using h)
    right
    refine ⟨d, ?_, hsub⟩
    rw [← hd]
    congr 1
    simp only [List.map_map]
    rfl
  · push_neg at hk
    have h1 : (files.map (fun e => FsOp.deleteFile p e.1)).take k
        = files.map (fun e => FsOp.deleteFile p e.1) :=
      List.take_of_length_le (Nat.le_of_lt hk)
    have h2 : 1 ≤ k - (files.map (fun e => FsOp.deleteFile p e.1)).length :=
      Nat.le_sub_of_add_le (by omega)
    have h3 : ([FsOp.rmdir p].take (k - (files.map (fun e => FsOp.deleteFile p e.1)).length))
        = [FsOp.rmdir p] :=
      List.take_of_length_le (by simpa using h2)
    rw [h1, h3, applyOps_append]
    left
    simp only [applyOps, applyOp]
    exact Fs.find_erase _ p

theorem copyTree_touched (files : Dir) (dst : Path) (q : Path) (h : q ≠ dst) :
    ∀ op ∈ copyTreeOps files dst, q ∉ op.touched := by
  intro op hop
  simp only [copyTreeOps, List.mem_cons, List.mem_map] at hop
  rcases hop with rfl | ⟨e, _, rfl⟩
  · simpa [FsOp.touched] using h
  · simpa [FsOp.touched] using h

theorem rmTree_touched (files : Dir) (p q : Path) (h : q ≠ p) :
    ∀ op ∈ rmTreeOps files p, q ∉ op.touched := by
  intro op hop
  simp only [rmTreeOps, List.mem_append, List.mem_map, List.mem_singleton] at hop
  rcases hop with ⟨e, _, rfl⟩ | rfl
  · simpa [FsOp.touched] using h
  · simpa [FsOp.touched] using h

theorem swapBackup_touched (fs : Fs) (target : Path) (backup : Bool)
    (backupTs : String) (q : Path)
    (h : q ≠ Path.siblingOf target (Path.nameOf target ++ "_backup_" ++ backupTs)) :
    ∀ op ∈ swapBackupOps fs target backup backupTs, q ∉ op.touched := by
  intro op hop
  simp only [swapBackupOps] at hop
  by_cases hc : backup ∧ (fs.find target).isSome
  · rw [if_pos hc] at hop
    rcases List.mem_append.1 hop with h1 | h2
    · cases hfb : fs.find
          (Path.siblingOf target (Path.nameOf target ++ "_backup_" ++ backupTs)) with
      | none => rw [hfb] at h1; simp at h1
      | some oldBackup => rw [hfb] at h1; exact rmTree_touched _ _ _ h op h1
    · exact copyTree_touched _ _ _ h op h2
  · rw [if_neg hc] at hop
    simp at hop

theorem swapRemove_touched (fs : Fs) (target : Path) (q : Path) (h : q ≠ target) :
    ∀ op ∈ swapRemoveOps fs target, q ∉ op.touched := by
  intro op hop
  simp only [swapRemoveOps] at hop
  cases hft : fs.find target with
  | none => rw [hft] at hop; simp at hop
  | some tfiles => rw [hft] at hop; exact rmTree_touched _ _ _ h op hop

/-- C1, amended: for every execution of `atomic_directory_swap(source,
target, backup)` interrupted (crash) after any prefix of its primitive
filesystem operations, the target directory afterwards contains the
complete new generation, or a subset of the old generation's files (the
complete old generation included), or does not exist at all (the window
between the removal of the old target and the rename) — it never holds a
mix of files from both generations. -/
theorem C1_swap_crash_no_generation_mix
    (fs : Fs) (source target : Path) (backup : Bool) (backupTs tempTs : String)
    (oldGen newGen : Dir)
    (hsrc : fs.find source = some newGen)
    (htgt : fs.find target = some oldGen)
    (htemp : Path.siblingOf target (Path.nameOf target ++ "_temp_" ++ tempTs) ≠ target)
    (hback : Path.siblingOf target (Path.nameOf target ++ "_backup_" ++ backupTs) ≠ target)
    (k : Nat) :
    ((applyOps fs ((swapTrace fs source target backup backupTs tempTs).take k)).find target
        = Option.none) ∨
    (∃ d, (applyOps fs ((swapTrace fs source target backup backupTs tempTs).take k)).find target
        = some d ∧ (d ⊆ oldGen ∨ d = newGen)) := by
  have htrace : swapTrace fs source target backup backupTs tempTs
      = swapBackupOps fs target backup backupTs
        ++ (copyTreeOps newGen (Path.siblingOf target (Path.nameOf target ++ "_temp_" ++ tempTs))
        ++ (rmTreeOps oldGen target
        ++ [FsOp.renameDir (Path.siblingOf target (Path.nameOf target ++ "_temp_" ++ tempTs))
              target])) := by
    simp [swapTrace, swapRemoveOps, htgt, hsrc]
  rw [htrace]
  set temp := Path.siblingOf target (Path.nameOf target ++ "_temp_" ++ tempTs) with htempdef
  set B := swapBackupOps fs target backup backupTs with hBdef
  set C := copyTreeOps newGen temp with hCdef
  set R := rmTreeOps oldGen target with hRdef
  rw [List.take_append_eq_append_take, applyOps_append]
  have hg1 : (applyOps fs (B.take k)).find target = some oldGen := by
    rw [applyOps_find_untouched _ _ _ (fun op hop =>
      swapBackup_touched fs target backup backupTs target (Ne.symm hback) op
        (List.take_subset _ _ hop))]
    exact htgt
  set g1 := applyOps fs (B.take k) with hg1def
  set k2 := k - B.length with hk2
  rw [List.take_append_eq_append_take, applyOps_append]
  have hg2 : (applyOps g1 (C.take k2)).find target = some oldGen := by
    rw [applyOps_find_untouched _ _ _ (fun op hop =>
      copyTree_touched newGen temp target (Ne.symm htemp) op (List.take_subset _ _ hop))]
    exact hg1
  set g2 := applyOps g1 (C.take k2) with hg2def
  set k3 := k2 - C.length with hk3
  rw [List.take_append_eq_append_take, applyOps_append]
  set k4 := k3 - R.length with hk4
  by_cases hk4z : k4 = 0
  · rw [hk4z]
    simp only [List.take_zero, applyOps]
    rcases rmTree_take oldGen target g2 oldGen hg2 k3 with hnone | ⟨d, hd, hsub⟩
    · rw [← hRdef] at hnone
      exact Or.inl hnone
    · rw [← hRdef] at hd
      exact Or.inr ⟨d, hd, Or.inl hsub⟩
  · have hk4ge : 1 ≤ k4 := Nat.one_le_iff_ne_zero.2 hk4z
    have hk3ge : R.length ≤ k3 := by omega
    have hk2ge : C.length ≤ k2 := by omega
    have hCfull : C.take k2 = C := List.take_of_length_le hk2ge
    have hRfull : R.take k3 = R := List.take_of_length_le hk3ge
    have hrenfull : ([FsOp.renameDir temp target].take k4) = [FsOp.renameDir temp target] :=
      List.take_of_length_le (by simpa using hk4ge)
    rw [hRfull, hrenfull]
    have hg3temp : (applyOps g2 R).find temp = some newGen := by
      rw [hRdef, applyOps_find_untouched _ _ _ (rmTree_touched oldGen target temp htemp)]
      rw [hg2def, hCfull, hCdef]
      exact applyOps_copyTree newGen temp g1
    simp only [applyOps, applyOp, hg3temp]
    exact Or.inr ⟨newGen, Fs.find_set _ _ _, Or.inr rfl⟩

/-- C1, counterexample to the claim as stated: `atomic_directory_swap`
interrupted right after the removal of the old target (four primitive
operations into a no-backup run) leaves the target directory absent, so
it contains neither the complete old generation nor the complete new
generation. -/
theorem C1_counterexample :
    ¬ (∀ k : Nat,
      (applyOps
          [(["staging", "cleaned"], [("b.csv", Content.csv 2 1 "new")]),
           (["cleaned_stable"], [("a.csv", Content.csv 1 1 "old")])]
          ((swapTrace
              [(["staging", "cleaned"], [("b.csv", Content.csv 2 1 "new")]),
               (["cleaned_stable"], [("a.csv", Content.csv 1 1 "old")])]
              ["staging", "cleaned"] ["cleaned_stable"] false "t1" "t2").take k)).find
          ["cleaned_stable"] = some [("a.csv", Content.csv 1 1 "old")] ∨
      (applyOps
          [(["staging", "cleaned"], [("b.csv", Content.csv 2 1 "new")]),
           (["cleaned_stable"], [("a.csv", Content.csv 1 1 "old")])]
          ((swapTrace
              [(["staging", "cleaned"], [("b.csv", Content.csv 2 1 "new")]),
               (["cleaned_stable"], [("a.csv", Content.csv 1 1 "old")])]
              ["staging", "cleaned"] ["cleaned_stable"] false "t1" "t2").take k)).find
          ["cleaned_stable"] = some [("b.csv", Content.csv 2 1 "new")]) := by
  intro h
  have h4 := h 4
  revert h4
  decide

/-- C1 witness: the amended crash property instantiated on a concrete
two-file swap, at the crash point just after the removal of the old
target. -/
theorem C1_witness :
    ((applyOps
        [(["staging", "cleaned"], [("b.csv", Content.csv 2 1 "new")]),
         (["cleaned_stable"], [("a.csv", Content.csv 1 1 "old")])]
        ((swapTrace
            [(["staging", "cleaned"], [("b.csv", Content.csv 2 1 "new")]),
             (["cleaned_stable"], [("a.csv", Content.csv 1 1 "old")])]
            ["staging", "cleaned"] ["cleaned_stable"] false "t1" "t2").take 4)).find
        ["cleaned_stable"] = Option.none) ∨
    (∃ d, (applyOps
        [(["staging", "cleaned"], [("b.csv", Content.csv 2 1 "new")]),
         (["cleaned_stable"], [("a.csv", Content.csv 1 1 "old")])]
        ((swapTrace
            [(["staging", "cleaned"], [("b.csv", Content.csv 2 1 "new")]),
             (["cleaned_stable"], [("a.csv", Content.csv 1 1 "old")])]
            ["staging", "cleaned"] ["cleaned_stable"] false "t1" "t2").take 4)).find
        ["cleaned_stable"] = some d
      ∧ (d ⊆ [("a.csv", Content.csv 1 1 "old")] ∨ d = [("b.csv", Content.csv 2 1 "new")])) :=
  C1_swap_crash_no_generation_mix _ _ _ false "t1" "t2" _ _
    (by decide) (by decide) (by decide) (by decide) 4

/-- C3: for every call to `atomic_directory_swap` in which a step after
the copy-to-temp step raises, the temporary directory is deleted, the
exception is re-raised to the caller (the result is the error), and the
target directory is exactly as before the call — except in the single
case where the removal of the old target already happened and the final
rename fails, in which case the target is gone. -/
theorem C3_swap_error_cleanup
    (fs : Fs) (source target : Path) (backup : Bool) (backupTs tempTs : String)
    (fail : SwapFail) (e : String)
    (hsrc : (fs.find source).isSome)
    (htemp : Path.siblingOf target (Path.nameOf target ++ "_temp_" ++ tempTs) ≠ target)
    (hback : Path.siblingOf target (Path.nameOf target ++ "_backup_" ++ backupTs) ≠ target)
    (herr : (atomic_directory_swap fs source target backup backupTs tempTs fail).1
        = Except.error e) :
    ((atomic_directory_swap fs source target backup backupTs tempTs fail).2.find
        (Path.siblingOf target (Path.nameOf target ++ "_temp_" ++ tempTs)) = Option.none) ∧
    (((atomic_directory_swap fs source target backup backupTs tempTs fail).2.find target
        = fs.find target) ∨
      (fail = SwapFail.atRename ∧ (fs.find target).isSome ∧
        (atomic_directory_swap fs source target backup backupTs tempTs fail).2.find target
          = Option.none)) := by
  cases hs : fs.find source with
  | none => rw [hs] at hsrc; simp at hsrc
  | some src =>
    simp only [atomic_directory_swap, hs] at herr ⊢
    have h2t : ((swapBackupStep fs target backup backupTs).set
          (Path.siblingOf target (Path.nameOf target ++ "_temp_" ++ tempTs))
          (((swapBackupStep fs target backup backupTs).find source).getD [])).find target
        = fs.find target := by
      rw [Fs.find_set_ne _ _ _ _ (Ne.symm htemp),
        swapBackupStep_find _ _ _ _ _ (Ne.symm hback)]
    cases fail with
    | noFail =>
        rw [if_neg (by simp)] at herr
        rw [if_neg (by simp)] at herr
        simp at herr
    | atRmtree =>
        by_cases hts : (fs.find target).isSome
        · rw [if_pos ⟨rfl, h2t ▸ hts⟩] at herr ⊢
          refine ⟨Fs.find_erase _ _, Or.inl ?_⟩
          rw [Fs.find_erase_ne _ _ _ (Ne.symm htemp)]
          exact h2t
        · rw [if_neg (fun hc => hts (h2t ▸ hc.2))] at herr
          rw [if_neg (by simp)] at herr
          simp at herr
    | atRename =>
        rw [if_neg (by simp)] at herr ⊢
        rw [if_pos rfl] at herr ⊢
        refine ⟨Fs.find_erase _ _, ?_⟩
        by_cases hts : (fs.find target).isSome
        · refine Or.inr ⟨rfl, hts, ?_⟩
          rw [if_pos (h2t ▸ hts)]
          rw [Fs.find_erase_ne _ _ _ (Ne.symm htemp)]
          exact Fs.find_erase _ _
        · refine Or.inl ?_
          rw [if_neg (fun hc => hts (h2t ▸ hc))]
          rw [Fs.find_erase_ne _ _ _ (Ne.symm htemp)]
          exact h2t

/-- C3 witness: the cleanup property instantiated on a concrete swap
whose rename step fails. -/
theorem C3_witness :
    ((atomic_directory_swap
        [(["staging", "cleaned"], [("b.csv", Content.csv 2 1 "new")]),
         (["cleaned_stable"], [("a.csv", Content.csv 1 1 "old")])]
        ["staging", "cleaned"] ["cleaned_stable"] true "t1" "t2"
        SwapFail.atRename).2.find
        (Path.siblingOf ["cleaned_stable"]
          (Path.nameOf ["cleaned_stable"] ++ "_temp_" ++ "t2")) = Option.none) ∧
    (((atomic_directory_swap
        [(["staging", "cleaned"], [("b.csv", Content.csv 2 1 "new")]),
         (["cleaned_stable"], [("a.csv", Content.csv 1 1 "old")])]
        ["staging", "cleaned"] ["cleaned_stable"] true "t1" "t2"
        SwapFail.atRename).2.find ["cleaned_stable"]
        = Fs.find
            [(["staging", "cleaned"], [("b.csv", Content.csv 2 1 "new")]),
             (["cleaned_stable"], [("a.csv", Content.csv 1 1 "old")])]
            ["cleaned_stable"]) ∨
      (SwapFail.atRename = SwapFail.atRename ∧
        (Fs.find
            [(["staging", "cleaned"], [("b.csv", Content.csv 2 1 "new")]),
             (["cleaned_stable"], [("a.csv", Content.csv 1 1 "old")])]
            ["cleaned_stable"]).isSome ∧
        (atomic_directory_swap
            [(["staging", "cleaned"], [("b.csv", Content.csv 2 1 "new")]),
             (["cleaned_stable"], [("a.csv", Content.csv 1 1 "old")])]
            ["staging", "cleaned"] ["cleaned_stable"] true "t1" "t2"
            SwapFail.atRename).2.find ["cleaned_stable"] = Option.none)) :=
  C3_swap_error_cleanup _ _ _ true "t1" "t2" SwapFail.atRename
    "temp.rename(target) failed" (by decide) (by decide) (by decide) (by rfl)

theorem swapBackupStep_find_self (fs : Fs) (target : Path) (bts : String) (td : Dir)
    (htgt : fs.find target = some td) :
    (swapBackupStep fs target true bts).find
      (Path.siblingOf target (Path.nameOf target ++ "_backup_" ++ bts)) = some td := by
  rw [swapBackupStep, if_pos (by simp [htgt])]
  simp only [backup_directory, htgt]
  exact Fs.find_set _ _ _

theorem swap_noFail_ok (fs : Fs) (source target : Path) (backup : Bool)
    (bts tts : String) (hsrc : (fs.find source).isSome) :
    (atomic_directory_swap fs source target backup bts tts SwapFail.noFail).1
      = Except.ok true := by
  cases hs : fs.find source with
  | none => rw [hs] at hsrc; simp at hsrc
  | some src =>
    simp only [atomic_directory_swap, hs]
    rw [if_neg (by simp), if_neg (by simp)]

theorem swap_ok_imp_true (fs : Fs) (source target : Path) (backup : Bool)
    (bts tts : String) (fail : SwapFail) (b : Bool)
    (h : (atomic_directory_swap fs source target backup bts tts fail).1 = Except.ok b) :
    b = true := by
  cases hs : fs.find source with
  | none => simp [atomic_directory_swap, hs] at h
  | some src =>
    simp only [atomic_directory_swap, hs] at h
    split at h
    · simp at h
    · split at h
      · simp at h
      · simp at h
        exact h

theorem swap_error_cases (fs : Fs) (source target : Path) (backup : Bool)
    (bts tts : String) (fail : SwapFail) (e : String)
    (h : (atomic_directory_swap fs source target backup bts tts fail).1 = Except.error e) :
    e = "Source directory does not exist: " ++ Path.nameOf source ∨
    e = "rmtree(target) failed" ∨ e = "temp.rename(target) failed" := by
  cases hs : fs.find source with
  | none =>
      simp only [atomic_directory_swap, hs] at h
      simp at h
      exact Or.inl h.symm
  | some src =>
    simp only [atomic_directory_swap, hs] at h
    split at h
    · simp at h
      exact Or.inr (Or.inl h.symm)
    · split at h
      · simp at h
        exact Or.inr (Or.inr h.symm)
      · simp at h

/-- Any directory other than the target, the temporary directory and the
swap's own backup directory is untouched by `atomic_directory_swap`,
whatever the outcome. -/
theorem swap_find_preserved (fs : Fs) (source target : Path) (backup : Bool)
    (bts tts : String) (fail : SwapFail) (q : Path)
    (hq1 : q ≠ target)
    (hq2 : q ≠ Path.siblingOf target (Path.nameOf target ++ "_temp_" ++ tts))
    (hq3 : q ≠ Path.siblingOf target (Path.nameOf target ++ "_backup_" ++ bts)) :
    (atomic_directory_swap fs source target backup bts tts fail).2.find q = fs.find q := by
  cases hs : fs.find source with
  | none => simp [atomic_directory_swap, hs]
  | some src =>
    simp only [atomic_directory_swap, hs]
    split
    · show ((_ : Fs).erase _).find q = _
      rw [Fs.find_erase_ne _ _ _ hq2, Fs.find_set_ne _ _ _ _ hq2,
        swapBackupStep_find _ _ _ _ _ hq3]
    · split
      · show ((_ : Fs).erase _).find q = _
        rw [Fs.find_erase_ne _ _ _ hq2]
        split
        · rw [Fs.find_erase_ne _ _ _ hq1, Fs.find_set_ne _ _ _ _ hq2,
            swapBackupStep_find _ _ _ _ _ hq3]
        · rw [Fs.find_set_ne _ _ _ _ hq2, swapBackupStep_find _ _ _ _ _ hq3]
      · show (((_ : Fs).erase _).set target _).find q = _
        rw [Fs.find_set_ne _ _ _ _ hq1, Fs.find_erase_ne _ _ _ hq2]
        split
        · rw [Fs.find_erase_ne _ _ _ hq1, Fs.find_set_ne _ _ _ _ hq2,
            swapBackupStep_find _ _ _ _ _ hq3]
        · rw [Fs.find_set_ne _ _ _ _ hq2, swapBackupStep_find _ _ _ _ _ hq3]

/-- After a successful swap the target holds exactly the source's files. -/
theorem swap_noFail_find_target (fs : Fs) (source target : Path) (backup : Bool)
    (bts tts : String) (src : Dir)
    (hs : fs.find source = some src)
    (hsb : source ≠ Path.siblingOf target (Path.nameOf target ++ "_backup_" ++ bts)) :
    (atomic_directory_swap fs source target backup bts tts SwapFail.noFail).2.find target
      = some src := by
  simp only [atomic_directory_swap, hs]
  rw [if_neg (by simp), if_neg (by simp)]
  show (((_ : Fs).erase _).set target _).find target = _
  rw [Fs.find_set]
  rw [swapBackupStep_find _ _ _ _ _ hsb, hs]
  rfl

/-- A successful backing-up swap leaves a copy of the old target at
`<target.name>_backup_<ts>`. -/
theorem swap_noFail_find_backup (fs : Fs) (source target : Path)
    (bts tts : String) (td : Dir)
    (hsrc : (fs.find source).isSome)
    (htgt : fs.find target = some td)
    (hb_tgt : Path.siblingOf target (Path.nameOf target ++ "_backup_" ++ bts) ≠ target)
    (hb_tmp : Path.siblingOf target (Path.nameOf target ++ "_backup_" ++ bts)
        ≠ Path.siblingOf target (Path.nameOf target ++ "_temp_" ++ tts))
    (htmp_tgt : Path.siblingOf target (Path.nameOf target ++ "_temp_" ++ tts) ≠ target) :
    (atomic_directory_swap fs source target true bts tts SwapFail.noFail).2.find
      (Path.siblingOf target (Path.nameOf target ++ "_backup_" ++ bts)) = some td := by
  cases hs : fs.find source with
  | none => rw [hs] at hsrc; simp at hsrc
  | some src =>
    simp only [atomic_directory_swap, hs]
    rw [if_neg (by simp), if_neg (by simp)]
    show (((_ : Fs).erase _).set target _).find _ = _
    rw [Fs.find_set_ne _ _ _ _ hb_tgt, Fs.find_erase_ne _ _ _ hb_tmp]
    have h2t : (((swapBackupStep fs target true bts).set
        (Path.siblingOf target (Path.nameOf target ++ "_temp_" ++ tts))
        (((swapBackupStep fs target true bts).find source).getD [])).find target)
        = some td := by
      rw [Fs.find_set_ne _ _ _ _ (Ne.symm htmp_tgt),
        swapBackupStep_find _ _ _ _ _ (Ne.symm hb_tgt), htgt]
    rw [if_pos (by rw [h2t]; rfl)]
    rw [Fs.find_erase_ne _ _ _ hb_tgt, Fs.find_set_ne _ _ _ _ hb_tmp]
    exact swapBackupStep_find_self fs target bts td htgt

/-- C5: for every call to `rollback_publication(backup_timestamp)` for
which no directory named `stable_backup_<backup_timestamp>` exists
anywhere under the project tree, the operation fails with the
no-backup-found error and performs no mutation (the filesystem is
returned unchanged). -/
theorem C5_rollback_missing_backup_no_mutation
    (eng : Engine) (fs : Fs) (backupTimestamp nowTs bts tts : String) (fail : SwapFail)
    (h : (fs.map (·.1)).filter
        (fun p => Path.nameOf p = "stable_backup_" ++ backupTimestamp) = []) :
    rollback_publication eng fs backupTimestamp nowTs bts tts fail
      = ({ success := false,
           error := some ("No backup found for timestamp: " ++ backupTimestamp) }, fs) := by
  rw [rollback_publication]
  simp only [h]

/-- C5 witness: a project tree holding only a stable directory has no
`stable_backup_2020` backup, so the rollback fails without mutation. -/
theorem C5_witness :
    rollback_publication {} [(["cleaned_stable"], [("a.csv", Content.csv 1 1 "x")])]
        "2020" "NOW" "b" "t" SwapFail.noFail
      = ({ success := false,
           error := some ("No backup found for timestamp: " ++ "2020") },
         [(["cleaned_stable"], [("a.csv", Content.csv 1 1 "x")])]) :=
  C5_rollback_missing_backup_no_mutation {} _ "2020" "NOW" "b" "t" SwapFail.noFail
    (by decide)

/-- C8: for every `publish_data` call with `force=false` whose staging
validation fails, the call returns `success=false` with the error and the
validation issues, and the filesystem is returned unchanged (no mutation
has occurred). -/
theorem C8_invalid_validation_no_mutation
    (eng : Engine) (fs : Fs) (runTs nowIso bts tts : String) (fail : SwapFail)
    (hinvalid : (validate_staging_data fs).valid = false) :
    publish_data eng fs runTs nowIso bts tts false fail
      = ({ success := false, error := some "Staging data validation failed",
           issues := some (validate_staging_data fs).issues,
           runTimestamp := some runTs }, fs) := by
  rw [publish_data]
  simp only [Bool.false_eq_true, if_false]
  rw [if_pos ⟨by simp, hinvalid⟩]

/-- C8 witness: an empty project tree (no staging directory) fails
validation, and publishing returns the structured failure with the
filesystem untouched. -/
theorem C8_witness :
    publish_data {} [] "R" "N" "b" "t" false SwapFail.noFail
      = ({ success := false, error := some "Staging data validation failed",
           issues := some (validate_staging_data []).issues,
           runTimestamp := some "R" }, []) :=
  C8_invalid_validation_no_mutation {} [] "R" "N" "b" "t" SwapFail.noFail (by decide)

theorem sourceMissing_error_ne (n : String) :
    "Source directory does not exist: " ++ n ≠ "Atomic directory swap failed" := by
  intro h
  have h2 := congrArg (fun s => s.data.head?) h
  simp only [String.data_append] at h2
  simp at h2

/-- C9: `atomic_directory_swap` never returns `False` — whenever it
returns normally the value is `True`, and otherwise an exception
escapes — and consequently the branch of `publish_data` that reports
`'Atomic directory swap failed'` on a `False` return is unreachable: no
`publish_data` result ever carries that error. -/
theorem C9_swap_never_false :
    (∀ (fs : Fs) (source target : Path) (backup : Bool) (bts tts : String)
        (fail : SwapFail) (b : Bool),
      (atomic_directory_swap fs source target backup bts tts fail).1 = Except.ok b →
        b = true) ∧
    (∀ (eng : Engine) (fs : Fs) (runTs nowIso bts tts : String) (force : Bool)
        (fail : SwapFail),
      (publish_data eng fs runTs nowIso bts tts force fail).1.error
        ≠ some "Atomic directory swap failed") := by
  constructor
  · exact fun fs source target backup bts tts fail b h =>
      swap_ok_imp_true fs source target backup bts tts fail b h
  · intro eng fs runTs nowIso bts tts force fail
    rw [publish_data]
    split
    case isTrue hforce =>
      rw [if_neg (by simp [hforce])]
      dsimp only
      split
      · simp
      · next fs3 heq =>
          exfalso
          have hb := swap_ok_imp_true _ _ _ _ _ _ _ false (congrArg Prod.fst heq)
          simp at hb
      · next e fs3 heq =>
          have he := swap_error_cases _ _ _ _ _ _ _ e (congrArg Prod.fst heq)
          intro hc
          have hce : e = "Atomic directory swap failed" := by simpa using hc
          rcases he with he | he | he
          · exact sourceMissing_error_ne _ (he ▸ hce)
          · rw [he] at hce
            simp at hce
          · rw [he] at hce
            simp at hce
    case isFalse hforce =>
      split
      · simp
      · dsimp only
        split
        · simp
        · next fs3 heq =>
            exfalso
            have hb := swap_ok_imp_true _ _ _ _ _ _ _ false (congrArg Prod.fst heq)
            simp at hb
        · next e fs3 heq =>
            have he := swap_error_cases _ _ _ _ _ _ _ e (congrArg Prod.fst heq)
            intro hc
            have hce : e = "Atomic directory swap failed" := by simpa using hc
            rcases he with he | he | he
            · exact sourceMissing_error_ne _ (he ▸ hce)
            · rw [he] at hce
              simp at hce
            · rw [he] at hce
              simp at hce

/-- C9 witness: the first conjunct applied to a concrete successful swap,
the second to a concrete publish call. -/
theorem C9_witness :
    true = true ∧
    (publish_data {} [] "R" "N" "b" "t" false SwapFail.noFail).1.error
      ≠ some "Atomic directory swap failed" :=
  ⟨C9_swap_never_false.1 [(["s"], ([] : Dir))] ["s"] ["t"] false "b" "t"
      SwapFail.noFail true (by rfl),
   C9_swap_never_false.2 {} [] "R" "N" "b" "t" false SwapFail.noFail⟩

/-- C4, counterexample to the claim as stated: a successful rollback on a
concrete project tree leaves no directory named `pre_rollback_<now>`; the
snapshot of the pre-rollback stable state is made under
`stable_backup_pre_rollback_<now>` instead (the `create_backup` helper
prefixes its argument with `stable_backup_`). -/
theorem C4_counterexample :
    (rollback_publication {}
        [(["cleaned_stable"], [("a.csv", Content.csv 1 1 "cur")]),
         (["stable_backup_T0"], [("b.csv", Content.csv 2 1 "old")])]
        "T0" "NOW" "b" "t" SwapFail.noFail).1.success = true ∧
    (rollback_publication {}
        [(["cleaned_stable"], [("a.csv", Content.csv 1 1 "cur")]),
         (["stable_backup_T0"], [("b.csv", Content.csv 2 1 "old")])]
        "T0" "NOW" "b" "t" SwapFail.noFail).2.find ["pre_rollback_NOW"] = Option.none ∧
    (rollback_publication {}
        [(["cleaned_stable"], [("a.csv", Content.csv 1 1 "cur")]),
         (["stable_backup_T0"], [("b.csv", Content.csv 2 1 "old")])]
        "T0" "NOW" "b" "t" SwapFail.noFail).2.find ["stable_backup_pre_rollback_NOW"]
      = some [("a.csv", Content.csv 1 1 "cur")] := by
  decide

/-- C4, amended: for every `rollback_publication(backup_timestamp)` call
that finds a matching backup, provided backups are enabled and the stable
directory exists and is non-empty, the current stable state is
snapshotted — before the restore swap — into a sibling directory named
`stable_backup_pre_rollback_<now>` (not `pre_rollback_<now>`: the
engine's `create_backup` prefixes the name), and that snapshot still
holds the pre-rollback stable content afterwards, making the rollback
itself reversible. -/
theorem C4_rollback_snapshot_before_swap
    (eng : Engine) (fs : Fs) (backupTimestamp nowTs bts tts : String)
    (bp : Path) (rest : List Path) (d : Dir) (fail : SwapFail)
    (hcand : (fs.map (·.1)).filter
        (fun p => Path.nameOf p = "stable_backup_" ++ backupTimestamp) = bp :: rest)
    (hbk : eng.backupPrevious = true)
    (hst : fs.find eng.stablePath = some d) (hd : d ≠ [])
    (hq1 : "stable_backup_pre_rollback_" ++ nowTs ≠ eng.stableDirectory)
    (hq2 : "stable_backup_pre_rollback_" ++ nowTs
        ≠ eng.stableDirectory ++ "_temp_" ++ tts)
    (hq3 : "stable_backup_pre_rollback_" ++ nowTs
        ≠ eng.stableDirectory ++ "_backup_" ++ bts) :
    (rollback_publication eng fs backupTimestamp nowTs bts tts fail).2.find
        ["stable_backup_pre_rollback_" ++ nowTs] = some d := by
  have hname : "stable_backup_" ++ ("pre_rollback_" ++ nowTs)
      = "stable_backup_pre_rollback_" ++ nowTs := by
    rw [← String.append_assoc]
    congr 1
  have hcb : create_backup eng fs ("pre_rollback_" ++ nowTs)
      = (some ["stable_backup_pre_rollback_" ++ nowTs],
         fs.set ["stable_backup_pre_rollback_" ++ nowTs] d) := by
    rw [create_backup, if_neg (by simp [hbk])]
    simp only [hst]
    rw [if_neg hd, backup_directory]
    simp only [hst, hname]
    simp [Engine.stablePath, Path.siblingOf]
  have hqt : (["stable_backup_pre_rollback_" ++ nowTs] : Path) ≠ eng.stablePath := by
    simp only [Engine.stablePath, ne_eq, List.cons.injEq, and_true]
    exact hq1
  have hqtemp : (["stable_backup_pre_rollback_" ++ nowTs] : Path)
      ≠ Path.siblingOf eng.stablePath
          (Path.nameOf eng.stablePath ++ "_temp_" ++ tts) := by
    simp only [Engine.stablePath, Path.siblingOf, Path.nameOf, ne_eq]
    simp only [List.dropLast, List.getLast?, List.nil_append, Option.getD_some,
      List.cons.injEq, and_true]
    exact hq2
  have hqbk : (["stable_backup_pre_rollback_" ++ nowTs] : Path)
      ≠ Path.siblingOf eng.stablePath
          (Path.nameOf eng.stablePath ++ "_backup_" ++ bts) := by
    simp only [Engine.stablePath, Path.siblingOf, Path.nameOf, ne_eq]
    simp only [List.dropLast, List.getLast?, List.nil_append, Option.getD_some,
      List.cons.injEq, and_true]
    exact hq3
  have hpres := swap_find_preserved
    (fs.set ["stable_backup_pre_rollback_" ++ nowTs] d) bp eng.stablePath true
    bts tts fail _ hqt hqtemp hqbk
  rw [rollback_publication]
  simp only [hcand]
  rw [hcb]
  dsimp only
  rcases hsw : atomic_directory_swap
      (fs.set ["stable_backup_pre_rollback_" ++ nowTs] d) bp eng.stablePath true
      bts tts fail with ⟨r, fs2⟩
  rw [hsw] at hpres
  rw [Fs.find_set] at hpres
  cases r with
  | error e => exact hpres
  | ok b =>
      cases b with
      | false => exact hpres
      | true => exact hpres

/-- C4 witness: the amended snapshot property instantiated on the same
concrete project tree as the counterexample. -/
theorem C4_witness :
    (rollback_publication {}
        [(["cleaned_stable"], [("a.csv", Content.csv 1 1 "cur")]),
         (["stable_backup_T0"], [("b.csv", Content.csv 2 1 "old")])]
        "T0" "NOW" "b" "t" SwapFail.noFail).2.find
        ["stable_backup_pre_rollback_" ++ "NOW"]
      = some [("a.csv", Content.csv 1 1 "cur")] :=
  C4_rollback_snapshot_before_swap {} _ "T0" "NOW" "b" "t" ["stable_backup_T0"] []
    [("a.csv", Content.csv 1 1 "cur")] SwapFail.noFail
    (by decide) (by decide) (by decide) (by decide) (by decide) (by decide) (by decide)

theorem validateFold_valid (files : List (Path × (String × Content)))
    (acc : ValidationResult) :
    (files.foldl (fun a pf => validateFile a pf.1 pf.2) acc).valid
      = (acc.valid && files.all (fun pf => (readCsv pf.2.2).isSome)) := by
  induction files generalizing acc with
  | nil => simp
  | cons pf t ih =>
      simp only [List.foldl_cons, List.all_cons]
      rw [ih]
      cases hr : readCsv pf.2.2 with
      | none => simp [validateFile, hr]
      | some rc =>
          cases rc with
          | mk r c => simp [validateFile, hr]

theorem validateFold_issues_mono (files : List (Path × (String × Content)))
    (acc : ValidationResult) (x : String) (hx : x ∈ acc.issues) :
    x ∈ (files.foldl (fun a pf => validateFile a pf.1 pf.2) acc).issues := by
  induction files generalizing acc with
  | nil => exact hx
  | cons pf t ih =>
      simp only [List.foldl_cons]
      refine ih _ ?_
      cases hr : readCsv pf.2.2 with
      | none => simp [validateFile, hr, hx]
      | some rc =>
          cases rc with
          | mk r c =>
              by_cases hz : r = 0
              · simp [validateFile, hr, hz, hx]
              · simp [validateFile, hr, hz, hx]

theorem validateFold_empty_issue (files : List (Path × (String × Content)))
    (acc : ValidationResult) (pf : Path × (String × Content)) (c : Nat)
    (hpf : pf ∈ files) (hr : readCsv pf.2.2 = some (0, c)) :
    ("Dataset " ++ pf.2.1 ++ " is empty")
      ∈ (files.foldl (fun a pf => validateFile a pf.1 pf.2) acc).issues := by
  induction files generalizing acc with
  | nil => simp at hpf
  | cons q t ih =>
      simp only [List.foldl_cons]
      rcases List.mem_cons.1 hpf with rfl | hmem
      · refine validateFold_issues_mono t _ _ ?_
        simp [validateFile, hr]
      · exact ih _ hmem

theorem validateFold_parse_issue (files : List (Path × (String × Content)))
    (acc : ValidationResult) (pf : Path × (String × Content))
    (hpf : pf ∈ files) (hr : readCsv pf.2.2 = Option.none) :
    ("Error reading " ++ pf.2.1 ++ ": parse error")
      ∈ (files.foldl (fun a pf => validateFile a pf.1 pf.2) acc).issues := by
  induction files generalizing acc with
  | nil => simp at hpf
  | cons q t ih =>
      simp only [List.foldl_cons]
      rcases List.mem_cons.1 hpf with rfl | hmem
      · refine validateFold_issues_mono t _ _ ?_
        simp [validateFile, hr]
      · exact ih _ hmem

/-- C6: `validate_staging_data` returns `valid=false` exactly when no
tabular files are scanned, some scanned file fails to parse, or the total
record count across all datasets is zero; any staging input whose scanned
files are all unparseable (in particular, none at all) yields
`valid=false` with at least one issue; a zero-row dataset is recorded as
an issue, and — when every file parses and the total is non-zero — does
not by itself invalidate the result. -/
theorem C6_validation_conditions (fs : Fs) :
    ((validate_staging_data fs).valid = false ↔
      (stagingCsvFiles fs = [] ∨
       (∃ pf ∈ stagingCsvFiles fs, readCsv pf.2.2 = Option.none) ∨
       (validate_staging_data fs).totalRecords = 0)) ∧
    ((∀ pf ∈ stagingCsvFiles fs, readCsv pf.2.2 = Option.none) →
      (validate_staging_data fs).valid = false ∧
        (validate_staging_data fs).issues ≠ []) ∧
    (∀ pf ∈ stagingCsvFiles fs, ∀ c, readCsv pf.2.2 = some (0, c) →
      ("Dataset " ++ pf.2.1 ++ " is empty") ∈ (validate_staging_data fs).issues) ∧
    ((∀ pf ∈ stagingCsvFiles fs, (readCsv pf.2.2).isSome) →
      stagingCsvFiles fs ≠ [] →
      (validate_staging_data fs).totalRecords ≠ 0 →
      (validate_staging_data fs).valid = true) := by
  cases hfind : fs.find stagingCleaned with
  | none =>
      have hF : stagingCsvFiles fs = [] := by simp [stagingCsvFiles, hfind]
      refine ⟨?_, ?_, ?_, ?_⟩ <;> simp [validate_staging_data, hfind, hF]
  | some d =>
      by_cases hF : stagingCsvFiles fs = []
      · refine ⟨?_, ?_, ?_, ?_⟩ <;> simp [validate_staging_data, hfind, hF]
      · set F := stagingCsvFiles fs with hFdef
        set r := F.foldl (fun a pf => validateFile a pf.1 pf.2)
            { valid := true, issues := [], datasetsFound := [], totalRecords := 0 }
          with hrdef
        have hval : validate_staging_data fs
            = if r.totalRecords = 0 then
                { r with valid := false,
                         issues := r.issues
                           ++ ["No data records found across all datasets"] }
              else r := by
          rw [validate_staging_data]
          simp only [hfind]
          rw [if_neg hF]
        have hrvalid : r.valid = F.all (fun pf => (readCsv pf.2.2).isSome) := by
          rw [hrdef, validateFold_valid]
          simp
        by_cases ht : r.totalRecords = 0
        · rw [hval, if_pos ht]
          refine ⟨?_, ?_, ?_, ?_⟩
          · simp [ht]
          · intro h
            exact ⟨rfl, by simp⟩
          · intro pf hpf c hr
            exact List.mem_append_left _ (validateFold_empty_issue F _ pf c hpf hr)
          · intro hparse hne htot
            simp only [] at htot
            exact absurd ht htot
        · rw [hval, if_neg ht]
          refine ⟨?_, ?_, ?_, ?_⟩
          · rw [hrvalid]
            constructor
            · intro hall
              refine Or.inr (Or.inl ?_)
              rcases List.all_eq_false.1 hall with ⟨pf, hpf, hfail⟩
              exact ⟨pf, hpf, Option.not_isSome_iff_eq_none.1 (by simpa using hfail)⟩
            · intro h
              rcases h with h | h | h
              · exact absurd h hF
              · rcases h with ⟨pf, hpf, hnone⟩
                exact List.all_eq_false.2 ⟨pf, hpf, by simp [hnone]⟩
              · exact absurd h ht
          · intro hallnone
            obtain ⟨pf0, hpf0⟩ := List.exists_mem_of_ne_nil F hF
            refine ⟨?_, ?_⟩
            · rw [hrvalid]
              exact List.all_eq_false.2 ⟨pf0, hpf0, by simp [hallnone pf0 hpf0]⟩
            · exact List.ne_nil_of_mem
                (validateFold_parse_issue F _ pf0 hpf0 (hallnone pf0 hpf0))
          · intro pf hpf c hr
            exact validateFold_empty_issue F _ pf c hpf hr
          · intro hparse hne htot
            rw [hrvalid]
            exact List.all_eq_true.2 fun pf hpf => hparse pf hpf

/-- C6 witness: a staging directory holding a single corrupt CSV file has
zero parseable tabular files; the validator flags it invalid with at
least one issue. -/
theorem C6_witness :
    (validate_staging_data [(["staging", "cleaned"], [("x.csv", Content.badCsv "z")])]).valid
        = false ∧
    (validate_staging_data [(["staging", "cleaned"], [("x.csv", Content.badCsv "z")])]).issues
        ≠ [] :=
  (C6_validation_conditions
      [(["staging", "cleaned"], [("x.csv", Content.badCsv "z")])]).2.1 (by decide)

/-- C7: for a staging directory containing exactly `households.csv`
(50 rows) and `members.csv` (200 rows) and no pre-existing stable
directory, `publish_data("2025-01-01_00-00-00")` returns `success=true`,
`backup_path=None`, `datasets_published=2` and `total_records=250`, and
afterwards the stable directory contains both CSV files plus exactly one
publication-metadata JSON file, which references the run timestamp. -/
theorem C7_example_scenario :
    (let out := publish_data {}
        [(["staging", "cleaned"],
          [("households.csv", Content.csv 50 5 "h"),
           ("members.csv", Content.csv 200 7 "m")])]
        "2025-01-01_00-00-00" "2025-01-01T00:01:00" "B" "T" false SwapFail.noFail
     let stable := (out.2.find ["cleaned_stable"]).getD []
     out.1.success = true ∧
     out.1.backupPath = some Option.none ∧
     out.1.datasetsPublished = some 2 ∧
     out.1.totalRecords = some 250 ∧
     Dir.getFile stable "households.csv" = some (Content.csv 50 5 "h") ∧
     Dir.getFile stable "members.csv" = some (Content.csv 200 7 "m") ∧
     (stable.filter (fun e => isPubRecordName e.1)).map (fun e => e.1)
        = ["_publication_metadata_2025-01-01_00-00-00.json"] ∧
     (∀ e ∈ stable, isPubRecordName e.1 = true →
        recordReferences e.2 "2025-01-01_00-00-00" = true)) := by
  decide

theorem create_backup_find (eng : Engine) (fs : Fs) (runTs : String) (q : Path)
    (hq : q ≠ ["stable_backup_" ++ runTs]) :
    (create_backup eng fs runTs).2.find q = fs.find q := by
  rw [create_backup]
  by_cases hb : eng.backupPrevious = true
  · rw [if_neg (by simp [hb])]
    cases hst : fs.find eng.stablePath with
    | none => rfl
    | some d =>
        dsimp only
        by_cases hd : d = []
        · rw [if_pos hd]
        · rw [if_neg hd, backup_directory]
          simp only [hst]
          have hsib : Path.siblingOf eng.stablePath ("stable_backup_" ++ runTs)
              = ["stable_backup_" ++ runTs] := by
            simp [Engine.stablePath, Path.siblingOf]
          rw [hsib]
          exact Fs.find_set_ne _ _ _ _ hq
  · rw [if_pos (by simp [hb])]

theorem create_backup_creates (eng : Engine) (fs : Fs) (runTs : String) (d : Dir)
    (hb : eng.backupPrevious = true)
    (hst : fs.find eng.stablePath = some d) (hd : d ≠ []) :
    create_backup eng fs runTs
      = (some ["stable_backup_" ++ runTs], fs.set ["stable_backup_" ++ runTs] d) := by
  rw [create_backup, if_neg (by simp [hb])]
  simp only [hst]
  rw [if_neg hd, backup_directory]
  simp only [hst]
  simp [Engine.stablePath, Path.siblingOf]

theorem prepare_direct (fs : Fs) (vr : ValidationResult)
    (hall : vr.datasetsFound.all (fun ds => ds.dir = stagingCleaned) = true) :
    prepare_staging_for_publication fs vr = (stagingCleaned, fs) := by
  rw [prepare_staging_for_publication, if_pos hall]

theorem cleanup_direct (fs : Fs) (runTs : String) (sd : Dir)
    (hs : fs.find stagingCleaned = some sd) :
    cleanup_staging fs runTs stagingCleaned
      = (fs.erase stagingCleaned).set ["staging", "published_archive", runTs] sd := by
  rw [cleanup_staging]
  simp only [hs]
  rw [if_neg (by decide)]

/-- The result of a valid, unforced, direct-staging `publish_data` run
with no injected swap failure: success, with the engine backup taken
first, the swap performed from `staging/cleaned`, the publication record
written into the stable directory, and staging archived. -/
theorem publish_direct_noFail_eq
    (eng : Engine) (fs : Fs) (runTs nowIso bts tts : String)
    (hvalid : (validate_staging_data fs).valid = true)
    (hall : (validate_staging_data fs).datasetsFound.all
        (fun ds => ds.dir = stagingCleaned) = true)
    (hstaging : (fs.find stagingCleaned).isSome) :
    publish_data eng fs runTs nowIso bts tts false SwapFail.noFail
      = ({ success := true,
           metadata := some (create_publication_metadata eng runTs nowIso
             (validate_staging_data fs)),
           backupPath := some (create_backup eng fs runTs).1,
           datasetsPublished := some (validate_staging_data fs).datasetsFound.length,
           totalRecords := some (validate_staging_data fs).totalRecords,
           runTimestamp := some runTs },
         cleanup_staging
           ((atomic_directory_swap (create_backup eng fs runTs).2 stagingCleaned
               eng.stablePath eng.backupPrevious bts tts SwapFail.noFail).2.set
             eng.stablePath
             (Dir.setFile
               (((atomic_directory_swap (create_backup eng fs runTs).2 stagingCleaned
                   eng.stablePath eng.backupPrevious bts tts SwapFail.noFail).2.find
                   eng.stablePath).getD [])
               ("_publication_metadata_" ++ runTs ++ ".json")
               (Content.metaJson (create_publication_metadata eng runTs nowIso
                 (validate_staging_data fs)))))
           runTs stagingCleaned) := by
  have hsrc2 : ((create_backup eng fs runTs).2.find stagingCleaned).isSome := by
    rw [create_backup_find eng fs runTs stagingCleaned (by simp [stagingCleaned])]
    exact hstaging
  have hok := swap_noFail_ok (create_backup eng fs runTs).2 stagingCleaned
    eng.stablePath eng.backupPrevious bts tts hsrc2
  have hpair : atomic_directory_swap (create_backup eng fs runTs).2 stagingCleaned
      eng.stablePath eng.backupPrevious bts tts SwapFail.noFail
      = (Except.ok true,
         (atomic_directory_swap (create_backup eng fs runTs).2 stagingCleaned
           eng.stablePath eng.backupPrevious bts tts SwapFail.noFail).2) := by
    rw [← hok]
  rw [publish_data]
  simp only [Bool.false_eq_true, if_false]
  rw [if_neg (by simp [hvalid])]
  rw [prepare_direct _ _ hall]
  dsimp only
  rw [hpair]

/-- C2, counterexample to the claim as stated: two successful publishes
in a row.  The Publication Record of the first publish is present in the
stable directory right after the first publish, but after the second
publish it is gone — the swap replaces the whole stable directory, so
Publication Records do not persist across swaps and the record set is not
an append-only log. -/
theorem C2_counterexample :
    (let p1 := publish_data {}
        [(["staging", "cleaned"], [("households.csv", Content.csv 50 5 "g1")])]
        "TS1" "N1" "B1" "T1" false SwapFail.noFail
     let fsMid := p1.2.set ["staging", "cleaned"]
        [("households.csv", Content.csv 60 5 "g2")]
     let p2 := publish_data {} fsMid "TS2" "N2" "B2" "T2" false SwapFail.noFail
     p1.1.success = true ∧ p2.1.success = true ∧
     Dir.getFile ((p1.2.find ["cleaned_stable"]).getD [])
        "_publication_metadata_TS1.json" ≠ Option.none ∧
     Dir.getFile ((p2.2.find ["cleaned_stable"]).getD [])
        "_publication_metadata_TS1.json" = Option.none) := by
  decide

/-- C2, amended: after every successful unforced direct-staging publish,
the stable directory holds exactly the published staging files plus the
single Publication Record of that publish; records of earlier publishes
are not carried over by the swap (they survive only inside backup
snapshots), so the record set under the stable directory is not an
append-only log. -/
theorem C2_stable_holds_only_new_record
    (eng : Engine) (fs : Fs) (runTs nowIso bts tts : String) (sd : Dir)
    (hvalid : (validate_staging_data fs).valid = true)
    (hall : (validate_staging_data fs).datasetsFound.all
        (fun ds => ds.dir = stagingCleaned) = true)
    (hstaging : fs.find stagingCleaned = some sd) :
    (publish_data eng fs runTs nowIso bts tts false SwapFail.noFail).2.find
        eng.stablePath
      = some (Dir.setFile sd ("_publication_metadata_" ++ runTs ++ ".json")
          (Content.metaJson (create_publication_metadata eng runTs nowIso
            (validate_staging_data fs)))) := by
  rw [publish_direct_noFail_eq eng fs runTs nowIso bts tts hvalid hall
    (by rw [hstaging]; rfl)]
  have hbk2 : (create_backup eng fs runTs).2.find stagingCleaned = some sd := by
    rw [create_backup_find eng fs runTs stagingCleaned (by simp [stagingCleaned])]
    exact hstaging
  have hSWtgt : (atomic_directory_swap (create_backup eng fs runTs).2 stagingCleaned
      eng.stablePath eng.backupPrevious bts tts SwapFail.noFail).2.find eng.stablePath
      = some sd := by
    refine swap_noFail_find_target _ _ _ _ _ _ sd hbk2 ?_
    simp [stagingCleaned, Engine.stablePath, Path.siblingOf]
  have hSWstg : (atomic_directory_swap (create_backup eng fs runTs).2 stagingCleaned
      eng.stablePath eng.backupPrevious bts tts SwapFail.noFail).2.find stagingCleaned
      = some sd := by
    rw [swap_find_preserved _ _ _ _ _ _ _ stagingCleaned
      (by simp [stagingCleaned, Engine.stablePath])
      (by simp [stagingCleaned, Engine.stablePath, Path.siblingOf])
      (by simp [stagingCleaned, Engine.stablePath, Path.siblingOf])]
    exact hbk2
  have hfs4stg : ((atomic_directory_swap (create_backup eng fs runTs).2 stagingCleaned
      eng.stablePath eng.backupPrevious bts tts SwapFail.noFail).2.set
        eng.stablePath
        (Dir.setFile
          (((atomic_directory_swap (create_backup eng fs runTs).2 stagingCleaned
              eng.stablePath eng.backupPrevious bts tts SwapFail.noFail).2.find
              eng.stablePath).getD [])
          ("_publication_metadata_" ++ runTs ++ ".json")
          (Content.metaJson (create_publication_metadata eng runTs nowIso
            (validate_staging_data fs))))).find stagingCleaned = some sd := by
    rw [Fs.find_set_ne _ _ _ _ (by simp [stagingCleaned, Engine.stablePath])]
    exact hSWstg
  rw [cleanup_direct _ runTs sd hfs4stg]
  rw [Fs.find_set_ne _ _ _ _ (by simp [Engine.stablePath])]
  rw [Fs.find_erase_ne _ _ _ (by simp [stagingCleaned, Engine.stablePath])]
  rw [Fs.find_set]
  rw [hSWtgt]
  rfl

/-- C2 witness: the amended stable-content property instantiated on a
concrete first publish. -/
theorem C2_witness :
    (publish_data {}
        [(["staging", "cleaned"], [("households.csv", Content.csv 50 5 "g1")])]
        "TS1" "N1" "B1" "T1" false SwapFail.noFail).2.find
        (Engine.stablePath {})
      = some (Dir.setFile [("households.csv", Content.csv 50 5 "g1")]
          ("_publication_metadata_" ++ "TS1" ++ ".json")
          (Content.metaJson (create_publication_metadata {} "TS1" "N1"
            (validate_staging_data
              [(["staging", "cleaned"],
                [("households.csv", Content.csv 50 5 "g1")])])))) :=
  C2_stable_holds_only_new_record {} _ "TS1" "N1" "B1" "T1"
    [("households.csv", Content.csv 50 5 "g1")]
    (by decide) (by decide) (by decide)

/-- C10: every successful unforced direct-staging publish over an
existing non-empty stable directory with `backup_previous=true` creates
two distinct backup copies of the pre-publish stable content: the
engine's `stable_backup_<run_timestamp>` and the swap primitive's own
`<stable_directory_name>_backup_<now>`. -/
theorem C10_double_backup
    (eng : Engine) (fs : Fs) (runTs nowIso bts tts : String) (d : Dir)
    (hvalid : (validate_staging_data fs).valid = true)
    (hall : (validate_staging_data fs).datasetsFound.all
        (fun ds => ds.dir = stagingCleaned) = true)
    (hstaging : (fs.find stagingCleaned).isSome)
    (hb : eng.backupPrevious = true)
    (hst : fs.find eng.stablePath = some d) (hd : d ≠ [])
    (hn1 : "stable_backup_" ++ runTs ≠ eng.stableDirectory)
    (hn2 : "stable_backup_" ++ runTs ≠ eng.stableDirectory ++ "_temp_" ++ tts)
    (hn3 : "stable_backup_" ++ runTs ≠ eng.stableDirectory ++ "_backup_" ++ bts)
    (hn4 : eng.stableDirectory ++ "_backup_" ++ bts ≠ eng.stableDirectory)
    (hn5 : eng.stableDirectory ++ "_backup_" ++ bts
        ≠ eng.stableDirectory ++ "_temp_" ++ tts)
    (hn6 : eng.stableDirectory ++ "_temp_" ++ tts ≠ eng.stableDirectory) :
    (publish_data eng fs runTs nowIso bts tts false SwapFail.noFail).1.success = true ∧
    (publish_data eng fs runTs nowIso bts tts false SwapFail.noFail).2.find
        ["stable_backup_" ++ runTs] = some d ∧
    (publish_data eng fs runTs nowIso bts tts false SwapFail.noFail).2.find
        [eng.stableDirectory ++ "_backup_" ++ bts] = some d ∧
    (["stable_backup_" ++ runTs] : Path)
      ≠ [eng.stableDirectory ++ "_backup_" ++ bts] := by
  obtain ⟨sd, hsd⟩ : ∃ sd, fs.find stagingCleaned = some sd := by
    cases hx : fs.find stagingCleaned with
    | none => rw [hx] at hstaging; simp at hstaging
    | some sd => exact ⟨sd, rfl⟩
  have hcb := create_backup_creates eng fs runTs d hb hst hd
  have hsibB : Path.siblingOf eng.stablePath
      (Path.nameOf eng.stablePath ++ "_backup_" ++ bts)
      = [eng.stableDirectory ++ "_backup_" ++ bts] := rfl
  have hsibT : Path.siblingOf eng.stablePath
      (Path.nameOf eng.stablePath ++ "_temp_" ++ tts)
      = [eng.stableDirectory ++ "_temp_" ++ tts] := rfl
  have hstable_ne_E : (eng.stablePath : Path) ≠ ["stable_backup_" ++ runTs] := by
    simp only [Engine.stablePath, ne_eq, List.cons.injEq, and_true]
    exact fun hc => hn1 hc.symm
  have hbk2stable : (create_backup eng fs runTs).2.find eng.stablePath = some d := by
    rw [hcb]
    show (fs.set ["stable_backup_" ++ runTs] d).find eng.stablePath = some d
    rw [Fs.find_set_ne _ _ _ _ hstable_ne_E]
    exact hst
  have hbk2stg : (create_backup eng fs runTs).2.find stagingCleaned = some sd := by
    rw [create_backup_find eng fs runTs stagingCleaned (by simp [stagingCleaned])]
    exact hsd
  have hsrc2 : ((create_backup eng fs runTs).2.find stagingCleaned).isSome := by
    rw [hbk2stg]; rfl
  -- the swap's own backup of the old stable content
  have hSW_S : (atomic_directory_swap (create_backup eng fs runTs).2 stagingCleaned
      eng.stablePath true bts tts SwapFail.noFail).2.find
      [eng.stableDirectory ++ "_backup_" ++ bts] = some d := by
    have h := swap_noFail_find_backup (create_backup eng fs runTs).2 stagingCleaned
      eng.stablePath bts tts d hsrc2 hbk2stable
      (by rw [hsibB]
          simp only [Engine.stablePath, ne_eq, List.cons.injEq, and_true]
          exact hn4)
      (by rw [hsibB, hsibT]
          simp only [ne_eq, List.cons.injEq, and_true]
          exact hn5)
      (by rw [hsibT]
          simp only [Engine.stablePath, ne_eq, List.cons.injEq, and_true]
          exact hn6)
    rw [hsibB] at h
    exact h
  -- the engine backup survives the swap
  have hSW_E : (atomic_directory_swap (create_backup eng fs runTs).2 stagingCleaned
      eng.stablePath true bts tts SwapFail.noFail).2.find
      ["stable_backup_" ++ runTs] = some d := by
    rw [swap_find_preserved _ _ _ _ _ _ _ ["stable_backup_" ++ runTs]
      (by simp only [Engine.stablePath, ne_eq, List.cons.injEq, and_true]
          exact hn1)
      (by rw [hsibT]
          simp only [ne_eq, List.cons.injEq, and_true]
          exact hn2)
      (by rw [hsibB]
          simp only [ne_eq, List.cons.injEq, and_true]
          exact hn3)]
    rw [hcb]
    show (fs.set ["stable_backup_" ++ runTs] d).find _ = some d
    exact Fs.find_set _ _ _
  -- staging survives the swap (needed to unfold the archiving step)
  have hSWstg : (atomic_directory_swap (create_backup eng fs runTs).2 stagingCleaned
      eng.stablePath true bts tts SwapFail.noFail).2.find stagingCleaned
      = some sd := by
    rw [swap_find_preserved _ _ _ _ _ _ _ stagingCleaned
      (by simp [stagingCleaned, Engine.stablePath])
      (by rw [hsibT]; simp [stagingCleaned])
      (by rw [hsibB]; simp [stagingCleaned])]
    exact hbk2stg
  rw [publish_direct_noFail_eq eng fs runTs nowIso bts tts hvalid hall hstaging, hb]
  refine ⟨rfl, ?_, ?_, ?_⟩
  · rw [cleanup_direct _ runTs sd
      (by rw [Fs.find_set_ne _ _ _ _ (by simp [stagingCleaned, Engine.stablePath])]
          exact hSWstg)]
    rw [Fs.find_set_ne _ _ _ _ (by simp)]
    rw [Fs.find_erase_ne _ _ _ (by simp [stagingCleaned])]
    rw [Fs.find_set_ne _ _ _ _ (Ne.symm hstable_ne_E)]
    exact hSW_E
  · rw [cleanup_direct _ runTs sd
      (by rw [Fs.find_set_ne _ _ _ _ (by simp [stagingCleaned, Engine.stablePath])]
          exact hSWstg)]
    rw [Fs.find_set_ne _ _ _ _ (by simp)]
    rw [Fs.find_erase_ne _ _ _ (by simp [stagingCleaned])]
    rw [Fs.find_set_ne _ _ _ _
      (by simp only [Engine.stablePath, ne_eq, List.cons.injEq, and_true]
          exact hn4)]
    exact hSW_S
  · simp only [ne_eq, List.cons.injEq, and_true]
    exact hn3

/-- C10 witness: a concrete publish over a non-empty stable directory
with default configuration produces both backup directories. -/
theorem C10_witness :
    (publish_data {}
        [(["staging", "cleaned"], [("households.csv", Content.csv 50 5 "g2")]),
         (["cleaned_stable"], [("old.csv", Content.csv 1 1 "g1")])]
        "TS2" "N2" "B2" "T2" false SwapFail.noFail).1.success = true ∧
    (publish_data {}
        [(["staging", "cleaned"], [("households.csv", Content.csv 50 5 "g2")]),
         (["cleaned_stable"], [("old.csv", Content.csv 1 1 "g1")])]
        "TS2" "N2" "B2" "T2" false SwapFail.noFail).2.find
        ["stable_backup_" ++ "TS2"] = some [("old.csv", Content.csv 1 1 "g1")] ∧
    (publish_data {}
        [(["staging", "cleaned"], [("households.csv", Content.csv 50 5 "g2")]),
         (["cleaned_stable"], [("old.csv", Content.csv 1 1 "g1")])]
        "TS2" "N2" "B2" "T2" false SwapFail.noFail).2.find
        [Engine.stableDirectory {} ++ "_backup_" ++ "B2"]
      = some [("old.csv", Content.csv 1 1 "g1")] ∧
    (["stable_backup_" ++ "TS2"] : Path)
      ≠ [Engine.stableDirectory {} ++ "_backup_" ++ "B2"] :=
  C10_double_backup {} _ "TS2" "N2" "B2" "T2" [("old.csv", Content.csv 1 1 "g1")]
    (by decide) (by decide) (by decide) (by decide) (by decide) (by decide)
    (by decide) (by decide) (by decide) (by decide) (by decide) (by decide)

end SurveyPipeline
